import Mathlib

/-!
Verification of the bq27xxx battery-gauge driver's protocol engine.

The definitions below are a shallow embedding of the Rust sources:

* `src/src/lib.rs` — the driver proper (`Bq27xx`): control commands,
  flag polling (`wait_flags`), config-update mode entry (`mode_cfgupdate`),
  the checksummed 32-byte memory-block protocol (`memblock_read`,
  `memblock_write`), `write_chem_id`, `probe` and the BQ27427 errata
  check `check_bq27427_errata`.
* `src/src/registers.rs` / `src/src/defs.rs` — register offsets,
  control subcommand codes, the `Command` envelope.
* `src/src/memory.rs` — the newer memory-block module (same control flow
  for reads and writes; its `memblock_write` omits the lone BLOCK_DATA
  pointer write that `lib.rs` issues before the data loop).
* `src/src/known_chips.rs` — `ChipType` and the gated errata fix
  `check_fix_bq27427_errata`.

Bytes and 16-bit words are modelled as `Nat` with explicit `% 256`
wrapping where the Rust code wraps.  Every i2c transaction the driver
issues is recorded in a trace of `BusOp`s; responses the chip returns
(flag reads, checksum reads, block reads) are supplied as oracle
parameters, so a driver function becomes a pure function from its
arguments and oracle to `(trace, result)`.
-/

/-! ## Definitions: the embedded driver -/

def FLAGS : Nat := 0x06

def DATA_CLASS : Nat := 0x3E

def DATA_BLOCK : Nat := 0x3F

def BLOCK_DATA : Nat := 0x40

def BLOCK_DATA_CHECKSUM : Nat := 0x60

def BLOCK_DATA_CONTROL : Nat := 0x61

def SET_CFGUPDATE : Nat := 0x0013

def CHEM_A : Nat := 0x0030

def CHEM_B : Nat := 0x0031

def CHEM_C : Nat := 0x0032

def RESET : Nat := 0x0041

def SOFT_RESET : Nat := 0x0042

def DEVICE_TYPE : Nat := 0x0001

def CC_CAL : Nat := 105

def STATE : Nat := 82

/-- `StatusFlags` bits actually named in the bitflags declaration
(bits 15, 14, 9..0). -/
def STATUS_FLAGS_KNOWN : Nat := 0xC3FF

/-- The CFGUPMODE bit (bit 4) of the Flags register. -/
def CFGUPMODE : Nat := 0x10

def MEMBLOCK_SIZE : Nat := 32

/-- `ChipError<E>`: transport error, poll timeout, or checksum mismatch. -/
inductive ChipError (E : Type) where
  | I2CError (e : E)
  | PollTimeout
  | Checksum
deriving DecidableEq

inductive BusOp where
  | wr (bytes : List Nat)
  | rdFlags (raw : Nat)
  | rdCsum (value : Nat)
  | rdBlock (data : List Nat)
  | rdByte (reg : Nat) (value : Nat)
  | rdCtrl (resp : Nat)
  | delayMs (ms : Nat)
deriving DecidableEq

/-- `write_control`: a 3-byte write of CONTROL plus the little-endian
subcommand (src/src/lib.rs lines 81-85). -/
def wrControl (subcommand : Nat) : BusOp :=
  .wr [0x00, subcommand % 256, (subcommand >>> 8) % 256]

/-- Number of trace entries satisfying `p`. -/
def countP (p : BusOp → Bool) (tr : List BusOp) : Nat :=
  (tr.filter p).length

/-- The running `u8` wrapping sum over the block bytes. -/
def wrap_sum (block : List Nat) : Nat :=
  block.foldl (fun csum b => (csum + b) % 256) 0

/-- `calculate_block_checksum`: `255 - csum` where `csum` is the wrapping
byte sum of the block. -/
def calculate_block_checksum (block : List Nat) : Nat :=
  255 - wrap_sum block

/-- `StatusFlags::from_bits_truncate`: unrecognized bits are dropped. -/
def from_bits_truncate (raw : Nat) : Nat :=
  raw &&& STATUS_FLAGS_KNOWN

/-- `StatusFlags::contains`: every bit of `mask` is set in `flags`. -/
def flags_contains (flags mask : Nat) : Bool :=
  flags &&& mask == mask

/-- One poll of `get_flags` succeeds and observes all bits of `mask`. -/
def pollHit (resps : Nat → Except E Nat) (mask i : Nat) : Prop :=
  ∃ raw, resps i = .ok raw ∧ flags_contains (from_bits_truncate raw) mask = true

/-- One poll of `get_flags` succeeds but some bit of `mask` is missing. -/
def pollMiss (resps : Nat → Except E Nat) (mask i : Nat) : Prop :=
  ∃ raw, resps i = .ok raw ∧ flags_contains (from_bits_truncate raw) mask = false

/-- The loop body of `wait_flags`, fuelled by the remaining retry count and
reading the `i`-th, `i+1`-th, ... flag responses from the oracle.  Each
iteration delays 500 ms, reads the Flags register (a transport error
propagates immediately), and returns as soon as the mask is contained;
exhausting the fuel yields `PollTimeout`. -/
def wait_flags_go (mask : Nat) (resps : Nat → Except E Nat) :
    Nat → Nat → List BusOp × Except (ChipError E) Unit
  | _, 0 => ([], .error .PollTimeout)
  | i, fuel + 1 =>
    match resps i with
    | .error e => ([.delayMs 500], .error (.I2CError e))
    | .ok raw =>
      if flags_contains (from_bits_truncate raw) mask then
        ([.delayMs 500, .rdFlags raw], .ok ())
      else
        let rest := wait_flags_go mask resps (i + 1) fuel
        (.delayMs 500 :: .rdFlags raw :: rest.1, rest.2)

/-- `wait_flags`: 10 retries, 500 ms apart (src/src/lib.rs lines 110-125). -/
def wait_flags (mask : Nat) (resps : Nat → Except E Nat) :
    List BusOp × Except (ChipError E) Unit :=
  wait_flags_go mask resps 0 10

/-- `mode_cfgupdate`: send SET_CFGUPDATE once, then wait for the CFGUPMODE
flag (src/src/lib.rs lines 128-138). -/
def mode_cfgupdate (resps : Nat → Except E Nat) :
    List BusOp × Except (ChipError E) Unit :=
  (wrControl SET_CFGUPDATE :: (wait_flags CFGUPMODE resps).1,
   (wait_flags CFGUPMODE resps).2)

def isSetCfgupdateWr (op : BusOp) : Bool :=
  op == wrControl SET_CFGUPDATE

def isSoftResetWr (op : BusOp) : Bool :=
  op == wrControl SOFT_RESET

def isRdFlags : BusOp → Bool
  | .rdFlags _ => true
  | _ => false

def isWr : BusOp → Bool
  | .wr _ => true
  | _ => false

/-- Each flag poll in a trace is immediately preceded by a 500 ms delay. -/
def delayBeforePolls : List BusOp → Bool
  | [] => true
  | .rdFlags _ :: _ => false
  | .delayMs d :: .rdFlags _ :: rest => (d == 500) && delayBeforePolls rest
  | _ :: rest => delayBeforePolls rest

def isRdCsum : BusOp → Bool
  | .rdCsum _ => true
  | _ => false

def isRdBlock : BusOp → Bool
  | .rdBlock _ => true
  | _ => false

/-- A write that touches the memory-block register range 0x3E-0x61:
window selection (DATA_CLASS, DATA_BLOCK, BLOCK_DATA_CONTROL), the 32
data-byte registers 0x40-0x5F, or the checksum register 0x60. -/
def isMemRegWrite : BusOp → Bool
  | .wr (r :: _) => decide (DATA_CLASS ≤ r) && decide (r ≤ BLOCK_DATA_CONTROL)
  | _ => false

/-- `memblock_prepare_op` (src/src/lib.rs lines 167-175): write zero to
BLOCK_DATA_CONTROL, the subclass to DATA_CLASS, the block index to
DATA_BLOCK, then settle for 5 ms. -/
def memblock_prepare_op (cls block : Nat) : List BusOp :=
  [.wr [BLOCK_DATA_CONTROL, 0], .wr [DATA_CLASS, cls], .wr [DATA_BLOCK, block],
   .delayMs 5]

/-- `memblock_read` (src/src/lib.rs lines 177-195, src/src/memory.rs lines
92-107): prepare the window, read the chip checksum, read the 32 data bytes,
and return the block only if the locally recomputed checksum agrees.
`chip_checksum` and `data` are the chip's responses to the two reads. -/
def memblock_read {E : Type} (cls block chip_checksum : Nat) (data : List Nat) :
    List BusOp × Except (ChipError E) (List Nat) :=
  (memblock_prepare_op cls block ++ [.rdCsum chip_checksum, .rdBlock data],
   if chip_checksum ≠ calculate_block_checksum data then .error .Checksum
   else .ok data)

/-- `memblock_write` (src/src/lib.rs lines 197-239; src/src/memory.rs lines
110-145 differs only in omitting the lone BLOCK_DATA pointer write): compute
the checksum, enter ConfigUpdate, prepare the window, write the 32 data bytes
one register at a time, propose the checksum, settle, re-prepare the window,
read the chip's checksum back, soft-reset, and only then compare.  `resps`
answers the mode-entry flag polls and `rb` the checksum read-back; a
transport error on the read-back propagates before the soft reset, exactly
as the `?` in the source does. -/
def memblock_write {E : Type} (cls block : Nat) (data : List Nat)
    (resps : Nat → Except E Nat) (rb : Except E Nat) :
    List BusOp × Except (ChipError E) Unit :=
  match (mode_cfgupdate resps).2 with
  | .error e => ((mode_cfgupdate resps).1, .error e)
  | .ok _ =>
    match rb with
    | .error e =>
      ((mode_cfgupdate resps).1 ++ memblock_prepare_op cls block
        ++ [.wr [BLOCK_DATA]]
        ++ data.enum.map (fun p => .wr [BLOCK_DATA + p.1, p.2])
        ++ [.wr [BLOCK_DATA_CHECKSUM, calculate_block_checksum data], .delayMs 5]
        ++ memblock_prepare_op cls block,
       .error (.I2CError e))
    | .ok chip_checksum =>
      ((mode_cfgupdate resps).1 ++ memblock_prepare_op cls block
        ++ [.wr [BLOCK_DATA]]
        ++ data.enum.map (fun p => .wr [BLOCK_DATA + p.1, p.2])
        ++ [.wr [BLOCK_DATA_CHECKSUM, calculate_block_checksum data], .delayMs 5]
        ++ memblock_prepare_op cls block
        ++ [.rdCsum chip_checksum, wrControl SOFT_RESET],
       if calculate_block_checksum data = chip_checksum then .ok ()
       else .error .Checksum)

structure BlockState where
  data : List Nat
  csum : Nat
deriving DecidableEq

def applyOp (st : BlockState) (op : BusOp) : BlockState :=
  match op with
  | .wr [r, v] =>
    if BLOCK_DATA ≤ r ∧ r < BLOCK_DATA_CHECKSUM then
      { st with data := st.data.set (r - BLOCK_DATA) v }
    else if r = BLOCK_DATA_CHECKSUM then { st with csum := v }
    else st
  | _ => st

def runWrites (st : BlockState) (tr : List BusOp) : BlockState :=
  tr.foldl applyOp st

/-- A write whose target register is a block data byte (0x40-0x5F) or the
block checksum register (0x60). -/
def isBlockDataWrite : BusOp → Bool
  | .wr (r :: _) => decide (BLOCK_DATA ≤ r) && decide (r ≤ BLOCK_DATA_CHECKSUM)
  | _ => false

/-- `check_fix_bq27427_errata` (src/src/known_chips.rs lines 27-67): select
the CC_CAL block, read the sign byte at BLOCK_DATA+5 (= 0x45); only when
bit 7 is set does it read the block checksum, enter ConfigUpdate, write the
byte with the bit flipped, write the old checksum XOR 0x80, and soft-reset.
`signByte` and `csumResp` are the chip's responses to the two reads. -/
def check_fix_bq27427_errata {E : Type} (signByte csumResp : Nat)
    (resps : Nat → Except E Nat) : List BusOp × Except (ChipError E) Unit :=
  if signByte &&& 0x80 > 0 then
    match (mode_cfgupdate resps).2 with
    | .error e =>
      (memblock_prepare_op CC_CAL 0
        ++ [.rdByte (BLOCK_DATA + 5) signByte, .rdCsum csumResp]
        ++ (mode_cfgupdate resps).1, .error e)
    | .ok _ =>
      (memblock_prepare_op CC_CAL 0
        ++ [.rdByte (BLOCK_DATA + 5) signByte, .rdCsum csumResp]
        ++ (mode_cfgupdate resps).1
        ++ [.wr [BLOCK_DATA + 5, signByte ^^^ 0x80],
            .wr [BLOCK_DATA_CHECKSUM, csumResp ^^^ 0x80],
            wrControl SOFT_RESET],
       .ok ())
  else
    (memblock_prepare_op CC_CAL 0 ++ [.rdByte (BLOCK_DATA + 5) signByte],
     .ok ())

/-- `check_bq27427_errata` (src/src/lib.rs lines 318-337): read the CC_CAL
block, clear bit 7 of byte 5 if set, and then write the block back
unconditionally via `memblock_write` — the write is not gated on the bit
having been set. -/
def check_bq27427_errata {E : Type} (chipCsum : Nat) (chipData : List Nat)
    (resps : Nat → Except E Nat) (rb : Except E Nat) :
    List BusOp × Except (ChipError E) Unit :=
  match (@memblock_read E CC_CAL 0 chipCsum chipData).2 with
  | .error e => ((@memblock_read E CC_CAL 0 chipCsum chipData).1, .error e)
  | .ok block0 =>
    ((@memblock_read E CC_CAL 0 chipCsum chipData).1
      ++ (memblock_write CC_CAL 0
            (if block0.getD 5 0 &&& 0x80 ≠ 0
             then block0.set 5 (block0.getD 5 0 &&& 0x7F) else block0)
            resps rb).1,
     (memblock_write CC_CAL 0
        (if block0.getD 5 0 &&& 0x80 ≠ 0
         then block0.set 5 (block0.getD 5 0 &&& 0x7F) else block0)
        resps rb).2)

/-- `ChipType` (src/src/known_chips.rs lines 12-17). -/
inductive ChipType where
  | BQ27421
  | BQ27426
  | BQ27427
  | Unknown
deriving DecidableEq

/-- Modelled from the spec: the `From<u16>` decode for `ChipType` is not
under src/ (only the enum itself and its use in `probe` are).  Per the spec
the control response 0x0421 decodes to the BQ27421-class device and every
code outside the closed set of known device types decodes to `Unknown`
rather than failing; the BQ27426/BQ27427 codes follow the same family
convention, and `probe` in src/src/lib.rs dispatches on
`ChipType::BQ27427`. -/
def chipTypeFrom (code : Nat) : ChipType :=
  if code = 0x0421 then .BQ27421
  else if code = 0x0426 then .BQ27426
  else if code = 0x0427 then .BQ27427
  else .Unknown

/-- `probe` (src/src/lib.rs lines 340-350): read the DEVICE_TYPE control
response, decode it, run the BQ27427 errata check when the decode says
BQ27427, and return the device type.  `response` is the chip's DEVICE_TYPE
answer; the remaining oracle arguments feed `check_bq27427_errata`. -/
def probe {E : Type} (response chipCsum : Nat) (chipData : List Nat)
    (resps : Nat → Except E Nat) (rb : Except E Nat) :
    List BusOp × Except (ChipError E) ChipType :=
  match chipTypeFrom response with
  | .BQ27427 =>
    ([wrControl DEVICE_TYPE, .rdCtrl response]
      ++ (check_bq27427_errata chipCsum chipData resps rb).1,
     match (check_bq27427_errata chipCsum chipData resps rb).2 with
     | .error e => .error e
     | .ok _ => .ok ChipType.BQ27427)
  | t => ([wrControl DEVICE_TYPE, .rdCtrl response], .ok t)

/-- `Command` (src/src/defs.rs lines 13-16): simple 1-byte register
commands and control commands carrying a 16-bit subcommand. -/
inductive Command where
  | Simple (command : Nat)
  | Control (command : Nat) (subcommand : Nat)
deriving DecidableEq

/-- Modelled from the spec: the full §7 error taxonomy.  The newer
snapshot's driver core — the lib.rs that consumes `Command` from defs.rs —
is not under src/; the spec lists `TransportFailure`, `PollTimeout`,
`ChecksumMismatch`, `ValueDecode` and `UsageError` as the error kinds of
the chip error type, with `UsageError` a distinct variant. -/
inductive SpecChipError where
  | TransportFailure
  | PollTimeout
  | ChecksumMismatch
  | ValueDecode
  | UsageError
deriving DecidableEq

/-- Modelled from the spec: `execute(envelope)` (§4.1) is not under src/.
It is valid only for `Control` envelopes — it issues the 3-byte write of
the opcode plus the little-endian subcommand (returned here as the bytes
written) — and calling it with a `Simple` envelope is a usage error. -/
def execute (cmd : Command) : Except SpecChipError (List Nat) :=
  match cmd with
  | .Control command subcommand =>
    .ok [command, subcommand % 256, (subcommand >>> 8) % 256]
  | .Simple _ => .error .UsageError

/-- `ChemId` (src/src/lib.rs lines 18-23). -/
inductive ChemId where
  | A4350
  | B4200
  | C4400
  | Unknown
deriving DecidableEq

/-- `write_chem_id` (src/src/lib.rs lines 241-253): enter ConfigUpdate,
select the chemistry subcommand — `panic!("cannot set unknown chem id!")`
on `ChemId::Unknown`, modelled as `none` — then send it and soft-reset.
The panic sits after the mode entry, exactly as in the source. -/
def write_chem_id {E : Type} (id : ChemId) (resps : Nat → Except E Nat) :
    Option (List BusOp × Except (ChipError E) Unit) :=
  match (mode_cfgupdate resps).2 with
  | .error e => some ((mode_cfgupdate resps).1, .error e)
  | .ok _ =>
    match id with
    | .A4350 => some ((mode_cfgupdate resps).1
        ++ [wrControl CHEM_A, wrControl SOFT_RESET], .ok ())
    | .B4200 => some ((mode_cfgupdate resps).1
        ++ [wrControl CHEM_B, wrControl SOFT_RESET], .ok ())
    | .C4400 => some ((mode_cfgupdate resps).1
        ++ [wrControl CHEM_C, wrControl SOFT_RESET], .ok ())
    | .Unknown => none

/-! ## Theorems -/

theorem wrap_sum_go (block : List Nat) (a : Nat) (ha : a < 256) :
    block.foldl (fun csum b => (csum + b) % 256) a = (a + block.sum) % 256 := by
  induction block generalizing a with
  | nil => simpa using (Nat.mod_eq_of_lt ha).symm
  | cons x xs ih =>
    simp only [List.foldl_cons, List.sum_cons]
    rw [ih _ (Nat.mod_lt _ (by omega)), Nat.add_mod, Nat.mod_mod_of_dvd _ (dvd_refl 256),
      ← Nat.add_mod, Nat.add_assoc]

theorem wrap_sum_eq (block : List Nat) : wrap_sum block = block.sum % 256 := by
  simpa using wrap_sum_go block 0 (by omega)

theorem wrap_sum_lt (block : List Nat) : wrap_sum block < 256 := by
  rw [wrap_sum_eq]; exact Nat.mod_lt _ (by omega)

/-- C2: the block checksum equals `255 - (sum mod 256)`, the wrapped sum never
exceeds 255 (so the `255 - csum` subtraction cannot underflow), and computing
the checksum twice over the unchanged buffer yields the same value both
times. -/
theorem C2_checksum_formula (block : List Nat)
    (hlen : block.length = MEMBLOCK_SIZE) (hbytes : ∀ b ∈ block, b < 256) :
    wrap_sum block ≤ 255 ∧
    calculate_block_checksum block = 255 - block.sum % 256 ∧
    calculate_block_checksum block = calculate_block_checksum block := by
  refine ⟨Nat.lt_succ_iff.mp (wrap_sum_lt block), ?_, rfl⟩
  rw [calculate_block_checksum, wrap_sum_eq]

theorem C2_checksum_formula_witness :
    (List.replicate 32 7).length = MEMBLOCK_SIZE ∧
    wrap_sum (List.replicate 32 7) ≤ 255 ∧
    calculate_block_checksum (List.replicate 32 7) =
      255 - (List.replicate 32 7).sum % 256 := by
  have h := C2_checksum_formula (List.replicate 32 7) (by decide)
    (fun b hb => by have := List.eq_of_mem_replicate hb; omega)
  exact ⟨by decide, h.1, h.2.1⟩

theorem countP_cons (p : BusOp → Bool) (x : BusOp) (tr : List BusOp) :
    countP p (x :: tr) = (if p x then 1 else 0) + countP p tr := by
  simp only [countP, List.filter_cons]
  split <;> simp [Nat.add_comm]

theorem shift_miss {E : Type} {resps : Nat → Except E Nat} {mask i k : Nat}
    (h : ∀ j, j < k + 1 → pollMiss resps mask (i + j)) :
    ∀ j, j < k → pollMiss resps mask (i + 1 + j) := by
  intro j hj
  have hm := h (j + 1) (by omega)
  have e : i + (j + 1) = i + 1 + j := by omega
  rwa [e] at hm

theorem wait_flags_go_no_wr {E : Type} (mask : Nat) (resps : Nat → Except E Nat)
    (i fuel : Nat) : ∀ op ∈ (wait_flags_go mask resps i fuel).1, isWr op = false := by
  induction fuel generalizing i with
  | zero => intro op h; simp [wait_flags_go] at h
  | succ n ih =>
    intro op h
    rw [wait_flags_go] at h
    cases hr : resps i with
    | error e => rw [hr] at h; simp at h; simp [h, isWr]
    | ok raw =>
      rw [hr] at h
      by_cases hc : flags_contains (from_bits_truncate raw) mask = true
      · simp [hc] at h
        rcases h with h | h <;> simp [h, isWr]
      · simp [eq_false_of_ne_true hc] at h
        rcases h with h | h | h
        · simp [h, isWr]
        · simp [h, isWr]
        · exact ih (i + 1) op h

theorem wait_flags_go_poll_bound {E : Type} (mask : Nat) (resps : Nat → Except E Nat)
    (i fuel : Nat) : countP isRdFlags (wait_flags_go mask resps i fuel).1 ≤ fuel := by
  induction fuel generalizing i with
  | zero => simp [wait_flags_go, countP]
  | succ n ih =>
    rw [wait_flags_go]
    cases hr : resps i with
    | error e => simp [countP_cons, isRdFlags, countP]
    | ok raw =>
      by_cases hc : flags_contains (from_bits_truncate raw) mask = true
      · simp [hc, countP_cons, isRdFlags, countP]
      · simp only [eq_false_of_ne_true hc, Bool.false_eq_true, if_false]
        have := ih (i + 1)
        simp [countP_cons, isRdFlags]
        omega

theorem wait_flags_go_timeout {E : Type} (mask : Nat) (resps : Nat → Except E Nat)
    (i fuel : Nat) (h : ∀ j, j < fuel → pollMiss resps mask (i + j)) :
    (wait_flags_go mask resps i fuel).2 = .error .PollTimeout := by
  induction fuel generalizing i with
  | zero => rfl
  | succ n ih =>
    obtain ⟨raw, hok, hmiss⟩ := h 0 (Nat.succ_pos n)
    rw [wait_flags_go]
    simp only [Nat.add_zero] at hok
    rw [hok]
    simp only [hmiss, Bool.false_eq_true, if_false]
    exact ih (i + 1) (shift_miss h)

theorem wait_flags_go_hit {E : Type} (mask : Nat) (resps : Nat → Except E Nat)
    (i fuel k : Nat) (hk : k < fuel)
    (hmiss : ∀ j, j < k → pollMiss resps mask (i + j))
    (hhit : pollHit resps mask (i + k)) :
    (wait_flags_go mask resps i fuel).2 = .ok () ∧
    countP isRdFlags (wait_flags_go mask resps i fuel).1 = k + 1 := by
  induction fuel generalizing i k with
  | zero => omega
  | succ n ih =>
    rw [wait_flags_go]
    cases k with
    | zero =>
      obtain ⟨raw, hok, hc⟩ := hhit
      simp only [Nat.add_zero] at hok
      rw [hok]
      simp [hc, countP_cons, isRdFlags, countP]
    | succ m =>
      obtain ⟨raw, hok, hmiss0⟩ := hmiss 0 (Nat.succ_pos m)
      simp only [Nat.add_zero] at hok
      rw [hok]
      simp only [hmiss0, Bool.false_eq_true, if_false]
      have hhit' : pollHit resps mask (i + 1 + m) := by
        have e : i + (m + 1) = i + 1 + m := by omega
        rwa [e] at hhit
      have hrec := ih (i + 1) m (by omega) (shift_miss hmiss) hhit'
      refine ⟨hrec.1, ?_⟩
      simp [countP_cons, isRdFlags]
      omega

theorem wait_flags_go_transport {E : Type} (mask : Nat) (resps : Nat → Except E Nat)
    (i fuel k : Nat) (e : E) (hk : k < fuel)
    (hmiss : ∀ j, j < k → pollMiss resps mask (i + j))
    (herr : resps (i + k) = .error e) :
    (wait_flags_go mask resps i fuel).2 = .error (.I2CError e) := by
  induction fuel generalizing i k with
  | zero => omega
  | succ n ih =>
    rw [wait_flags_go]
    cases k with
    | zero =>
      simp only [Nat.add_zero] at herr
      rw [herr]
    | succ m =>
      obtain ⟨raw, hok, hmiss0⟩ := hmiss 0 (Nat.succ_pos m)
      simp only [Nat.add_zero] at hok
      rw [hok]
      simp only [hmiss0, Bool.false_eq_true, if_false]
      have herr' : resps (i + 1 + m) = .error e := by
        have heq : i + (m + 1) = i + 1 + m := by omega
        rwa [heq] at herr
      exact ih (i + 1) m (by omega) (shift_miss hmiss) herr'

theorem wait_flags_go_delays {E : Type} (mask : Nat) (resps : Nat → Except E Nat)
    (i fuel : Nat) : delayBeforePolls (wait_flags_go mask resps i fuel).1 = true := by
  induction fuel generalizing i with
  | zero => rfl
  | succ n ih =>
    rw [wait_flags_go]
    cases hr : resps i with
    | error e => rfl
    | ok raw =>
      by_cases hc : flags_contains (from_bits_truncate raw) mask = true
      · simp [hc, delayBeforePolls]
      · simp only [eq_false_of_ne_true hc, Bool.false_eq_true, if_false]
        simpa [delayBeforePolls] using ih (i + 1)

theorem delayBeforePolls_cons_wr (bytes : List Nat) (tr : List BusOp) :
    delayBeforePolls (.wr bytes :: tr) = delayBeforePolls tr := by
  cases tr with
  | nil => rfl
  | cons op rest => cases op <;> rfl

theorem wait_flags_no_setcfg {E : Type} (resps : Nat → Except E Nat) :
    countP isSetCfgupdateWr (wait_flags CFGUPMODE resps).1 = 0 := by
  have hnowr := wait_flags_go_no_wr CFGUPMODE resps 0 10
  simp only [countP, List.length_eq_zero, List.filter_eq_nil_iff]
  intro op hop
  have hw := hnowr op hop
  cases op <;> simp_all [isWr, isSetCfgupdateWr, wrControl]

/-- C5: entering ConfigUpdate sends SET_CFGUPDATE exactly once (it is never
re-sent while polling); at most 10 polls are made, each preceded by a 500 ms
delay; the first poll that observes CFGUPMODE ends the wait with `Ok` (after
exactly that many polls); 10 missing polls yield `PollTimeout`; and a
transport failure on any poll propagates immediately as `I2CError`, an error
distinct from `PollTimeout`. -/
theorem C5_mode_entry {E : Type} (resps : Nat → Except E Nat) :
    countP isSetCfgupdateWr (mode_cfgupdate resps).1 = 1 ∧
    countP isRdFlags (mode_cfgupdate resps).1 ≤ 10 ∧
    delayBeforePolls (mode_cfgupdate resps).1 = true ∧
    ((∀ j, j < 10 → pollMiss resps CFGUPMODE j) →
      (mode_cfgupdate resps).2 = .error .PollTimeout) ∧
    (∀ k, k < 10 → (∀ j, j < k → pollMiss resps CFGUPMODE j) →
      pollHit resps CFGUPMODE k →
      (mode_cfgupdate resps).2 = .ok () ∧
      countP isRdFlags (mode_cfgupdate resps).1 = k + 1) ∧
    (∀ k e, k < 10 → (∀ j, j < k → pollMiss resps CFGUPMODE j) →
      resps k = .error e →
      (mode_cfgupdate resps).2 = .error (.I2CError e)) ∧
    (∀ e : E, (ChipError.PollTimeout : ChipError E) ≠ .I2CError e) := by
  refine ⟨?_, ?_, ?_, ?_, ?_, ?_, fun e h => by cases h⟩
  · rw [mode_cfgupdate]
    simp only [countP_cons]
    rw [wait_flags_no_setcfg]
    simp [isSetCfgupdateWr]
  · rw [mode_cfgupdate]
    simp only [countP_cons, isRdFlags, wrControl, if_false]
    simpa using wait_flags_go_poll_bound CFGUPMODE resps 0 10
  · rw [mode_cfgupdate]
    simp only [wrControl]
    rw [delayBeforePolls_cons_wr]
    exact wait_flags_go_delays CFGUPMODE resps 0 10
  · intro h
    exact wait_flags_go_timeout CFGUPMODE resps 0 10 fun j hj => by
      simpa using h j hj
  · intro k hk hmiss hhit
    have hw := wait_flags_go_hit CFGUPMODE resps 0 10 k hk
      (fun j hj => by simpa using hmiss j hj) (by simpa using hhit)
    refine ⟨hw.1, ?_⟩
    rw [mode_cfgupdate]
    simp only [countP_cons, isRdFlags, wrControl, if_false]
    simpa using hw.2
  · intro k e hk hmiss herr
    exact wait_flags_go_transport CFGUPMODE resps 0 10 k e hk
      (fun j hj => by simpa using hmiss j hj) (by simpa using herr)

theorem C5_mode_entry_witness :
    (mode_cfgupdate (fun _ => (.ok 0x10 : Except Unit Nat))).2 = .ok () ∧
    countP isRdFlags (mode_cfgupdate (fun _ => (.ok 0x10 : Except Unit Nat))).1 = 1 := by
  exact (C5_mode_entry (fun _ => (.ok 0x10 : Except Unit Nat))).2.2.2.2.1 0
    (by omega) (fun j hj => absurd hj (Nat.not_lt_zero j))
    ⟨0x10, rfl, by decide⟩

/-- C3: on a block read, if the chip-reported checksum disagrees with the
checksum recomputed over the 32 data bytes just read, the result is a
`Checksum` error and no block value is exposed; if they agree the block is
returned; and in either case each of the two reads is issued exactly once —
no retry happens at this layer. -/
theorem C3_read_integrity {E : Type} (cls block chip_checksum : Nat)
    (data : List Nat) :
    (chip_checksum ≠ calculate_block_checksum data →
      (@memblock_read E cls block chip_checksum data).2 = .error .Checksum ∧
      ∀ b, (@memblock_read E cls block chip_checksum data).2 ≠ .ok b) ∧
    (chip_checksum = calculate_block_checksum data →
      (@memblock_read E cls block chip_checksum data).2 = .ok data) ∧
    countP isRdCsum (@memblock_read E cls block chip_checksum data).1 = 1 ∧
    countP isRdBlock (@memblock_read E cls block chip_checksum data).1 = 1 := by
  refine ⟨fun hne => ?_, fun heq => ?_, ?_, ?_⟩
  · simp [memblock_read, hne]
  · simp [memblock_read, heq]
  · simp [memblock_read, memblock_prepare_op, countP, List.filter, isRdCsum]
  · simp [memblock_read, memblock_prepare_op, countP, List.filter, isRdBlock]

/-- The spec's concrete scenario: a block whose true checksum is 0x20 but
whose chip-reported checksum byte is 0x10 is rejected. -/
theorem C3_read_integrity_witness :
    0x10 ≠ calculate_block_checksum (0xDF :: List.replicate 31 0) ∧
    (@memblock_read Unit STATE 0 0x10 (0xDF :: List.replicate 31 0)).2
      = .error .Checksum := by
  have hne : (0x10 : Nat) ≠ calculate_block_checksum (0xDF :: List.replicate 31 0) := by
    decide
  exact ⟨hne,
    ((C3_read_integrity STATE 0 0x10 (0xDF :: List.replicate 31 0)).1 hne).1⟩

/-- C1: once ConfigUpdate mode has been entered, a block write runs the same
fixed bus sequence on the success path and on the checksum-failure path —
window re-selection, the 32 data writes, the proposed checksum, the settle
delay, re-selection, the chip checksum read-back and then the soft reset as
the very last bus operation — and only the returned value depends on the
comparison: `Ok` exactly when the read-back matches the proposed checksum,
a `Checksum` error exactly when it does not. -/
theorem C1_write_always_soft_resets {E : Type} (cls block : Nat)
    (data : List Nat) (resps : Nat → Except E Nat) (c : Nat)
    (hm : (mode_cfgupdate resps).2 = .ok ()) :
    (memblock_write cls block data resps (.ok c)).1
      = (mode_cfgupdate resps).1 ++ memblock_prepare_op cls block
        ++ [.wr [BLOCK_DATA]]
        ++ data.enum.map (fun p => .wr [BLOCK_DATA + p.1, p.2])
        ++ [.wr [BLOCK_DATA_CHECKSUM, calculate_block_checksum data], .delayMs 5]
        ++ memblock_prepare_op cls block
        ++ [.rdCsum c, wrControl SOFT_RESET] ∧
    (memblock_write cls block data resps (.ok c)).1.getLast?
      = some (wrControl SOFT_RESET) ∧
    ((memblock_write cls block data resps (.ok c)).2 = .ok () ↔
      calculate_block_checksum data = c) ∧
    ((memblock_write cls block data resps (.ok c)).2 = .error .Checksum ↔
      calculate_block_checksum data ≠ c) := by
  have htr : (memblock_write cls block data resps (.ok c)).1
      = (mode_cfgupdate resps).1 ++ memblock_prepare_op cls block
        ++ [.wr [BLOCK_DATA]]
        ++ data.enum.map (fun p => .wr [BLOCK_DATA + p.1, p.2])
        ++ [.wr [BLOCK_DATA_CHECKSUM, calculate_block_checksum data], .delayMs 5]
        ++ memblock_prepare_op cls block
        ++ [.rdCsum c, wrControl SOFT_RESET] := by
    simp [memblock_write, hm]
  refine ⟨htr, ?_, ?_, ?_⟩
  · rw [htr]
    rw [show ([.rdCsum c, wrControl SOFT_RESET] : List BusOp)
        = [.rdCsum c] ++ [wrControl SOFT_RESET] from rfl]
    rw [← List.append_assoc, List.getLast?_concat]
  · by_cases hc : calculate_block_checksum data = c
    · simp [memblock_write, hm, hc]
    · simp [memblock_write, hm, hc]
  · by_cases hc : calculate_block_checksum data = c
    · simp [memblock_write, hm, hc]
    · simp [memblock_write, hm, hc]

theorem C1_write_always_soft_resets_witness :
    (mode_cfgupdate (fun _ => (.ok 0x10 : Except Unit Nat))).2 = .ok () ∧
    (memblock_write STATE 0 (List.replicate 32 0)
        (fun _ => (.ok 0x10 : Except Unit Nat)) (.ok 255)).1.getLast?
      = some (wrControl SOFT_RESET) ∧
    (memblock_write STATE 0 (List.replicate 32 0)
        (fun _ => (.ok 0x10 : Except Unit Nat)) (.ok 255)).2 = .ok () ∧
    (memblock_write STATE 0 (List.replicate 32 0)
        (fun _ => (.ok 0x10 : Except Unit Nat)) (.ok 7)).1.getLast?
      = some (wrControl SOFT_RESET) ∧
    (memblock_write STATE 0 (List.replicate 32 0)
        (fun _ => (.ok 0x10 : Except Unit Nat)) (.ok 7)).2 = .error .Checksum := by
  have hm : (mode_cfgupdate (fun _ => (.ok 0x10 : Except Unit Nat))).2 = .ok () := rfl
  have h1 := C1_write_always_soft_resets STATE 0 (List.replicate 32 0)
    (fun _ => (.ok 0x10 : Except Unit Nat)) 255 hm
  have h2 := C1_write_always_soft_resets STATE 0 (List.replicate 32 0)
    (fun _ => (.ok 0x10 : Except Unit Nat)) 7 hm
  exact ⟨hm, h1.2.1, h1.2.2.1.mpr (by decide), h2.2.1, h2.2.2.2.mpr (by decide)⟩

/-- C4: a block write against a chip that never raises CFGUPMODE within the
10 polls fails with `PollTimeout`, and its trace contains no write in the
memory-block register range 0x3E-0x61: no window selection, no data byte and
no checksum is ever written. -/
theorem C4_timeout_no_mem_writes {E : Type} (cls block : Nat)
    (data : List Nat) (resps : Nat → Except E Nat) (rb : Except E Nat)
    (h : ∀ j, j < 10 → pollMiss resps CFGUPMODE j) :
    (memblock_write cls block data resps rb).2 = .error .PollTimeout ∧
    ∀ op ∈ (memblock_write cls block data resps rb).1,
      isMemRegWrite op = false := by
  have ht : (mode_cfgupdate resps).2 = .error .PollTimeout :=
    wait_flags_go_timeout CFGUPMODE resps 0 10 fun j hj => by simpa using h j hj
  have hnowr := wait_flags_go_no_wr CFGUPMODE resps 0 10
  constructor
  · simp [memblock_write, ht]
  · simp only [memblock_write, ht]
    intro op hop
    rcases List.mem_cons.mp hop with hop | hop
    · subst hop; decide
    · have hw := hnowr op hop
      cases op <;> simp_all [isWr, isMemRegWrite]

theorem C4_timeout_no_mem_writes_witness :
    (memblock_write STATE 0 (List.replicate 32 0)
        (fun _ => (.ok 0 : Except Unit Nat)) (.ok 0)).2 = .error .PollTimeout ∧
    ((memblock_write STATE 0 (List.replicate 32 0)
        (fun _ => (.ok 0 : Except Unit Nat)) (.ok 0)).1.all
      fun op => !isMemRegWrite op) = true := by
  have h := C4_timeout_no_mem_writes STATE 0 (List.replicate 32 0)
    (fun _ => (.ok 0 : Except Unit Nat)) (.ok 0)
    (fun j hj => ⟨0, rfl, by decide⟩)
  refine ⟨h.1, ?_⟩
  rw [List.all_eq_true]
  intro op hop
  simp [h.2 op hop]

theorem runWrites_append (st : BlockState) (a b : List BusOp) :
    runWrites st (a ++ b) = runWrites (runWrites st a) b :=
  List.foldl_append applyOp st a b

theorem applyOp_non_wr (st : BlockState) (op : BusOp) (h : isWr op = false) :
    applyOp st op = st := by
  cases op
  · simp [isWr] at h
  all_goals rfl

theorem runWrites_id_of_no_wr (tr : List BusOp)
    (h : ∀ op ∈ tr, isWr op = false) (st : BlockState) :
    runWrites st tr = st := by
  induction tr generalizing st with
  | nil => rfl
  | cons op rest ih =>
    have h1 : applyOp st op = st :=
      applyOp_non_wr st op (h op (List.mem_cons_self op rest))
    show List.foldl applyOp (applyOp st op) rest = st
    rw [h1]
    exact ih (fun o ho => h o (List.mem_cons_of_mem op ho)) st

theorem runWrites_mode_trace {E : Type} (resps : Nat → Except E Nat)
    (st : BlockState) : runWrites st (mode_cfgupdate resps).1 = st := by
  show List.foldl applyOp (applyOp st (wrControl SET_CFGUPDATE))
    (wait_flags CFGUPMODE resps).1 = st
  rw [show applyOp st (wrControl SET_CFGUPDATE) = st from rfl]
  exact runWrites_id_of_no_wr _ (wait_flags_go_no_wr CFGUPMODE resps 0 10) st

/-- C6 counterexample: on a chip whose CC_CAL sign bit is already clear (the
state left by a successful first run), `check_bq27427_errata` — the lib.rs
errata patcher — completes `Ok` yet performs data-byte and checksum-register
writes, so it is not a no-op on chip state. -/
theorem C6_counterexample :
    (@check_bq27427_errata Unit 255 (List.replicate 32 0)
        (fun _ => .ok 0x10) (.ok 255)).2 = .ok () ∧
    0 < countP isBlockDataWrite
        (@check_bq27427_errata Unit 255 (List.replicate 32 0)
          (fun _ => .ok 0x10) (.ok 255)).1 := by
  constructor
  · rfl
  · decide

/-- C6 (amended): the gated variant `check_fix_bq27427_errata` is the
idempotent one.  When the sign bit is already clear its whole trace is the
window selection plus the single sign-byte read needed for inspection: it
performs no data-byte or checksum-register write, never sends SET_CFGUPDATE
or SOFT_RESET, returns `Ok`, and leaves the block window state untouched.
The ungated lib.rs variant `check_bq27427_errata` instead rewrites the whole
block even when the bit is clear (see the counterexample). -/
theorem C6_errata_fix_gate_idempotent {E : Type} (signByte csumResp : Nat)
    (resps : Nat → Except E Nat) (h : signByte &&& 0x80 = 0) :
    (@check_fix_bq27427_errata E signByte csumResp resps).1
      = memblock_prepare_op CC_CAL 0 ++ [.rdByte (BLOCK_DATA + 5) signByte] ∧
    (@check_fix_bq27427_errata E signByte csumResp resps).2 = .ok () ∧
    (∀ op ∈ (@check_fix_bq27427_errata E signByte csumResp resps).1,
      isBlockDataWrite op = false) ∧
    countP isSetCfgupdateWr (@check_fix_bq27427_errata E signByte csumResp resps).1 = 0 ∧
    countP isSoftResetWr (@check_fix_bq27427_errata E signByte csumResp resps).1 = 0 ∧
    ∀ st : BlockState,
      runWrites st (@check_fix_bq27427_errata E signByte csumResp resps).1 = st := by
  have hcond : ¬ (signByte &&& 0x80 > 0) := by omega
  have htr : (@check_fix_bq27427_errata E signByte csumResp resps)
      = (memblock_prepare_op CC_CAL 0 ++ [.rdByte (BLOCK_DATA + 5) signByte],
         .ok ()) := by
    simp [check_fix_bq27427_errata, hcond]
  rw [htr]
  refine ⟨rfl, rfl, ?_, rfl, rfl, fun st => rfl⟩
  intro op hop
  simp only [memblock_prepare_op, List.cons_append, List.nil_append,
    List.mem_cons, List.not_mem_nil, or_false] at hop
  rcases hop with h1 | h1 | h1 | h1 | h1 <;> subst h1 <;> rfl

theorem C6_errata_fix_gate_idempotent_witness :
    (0x12 &&& 0x80 : Nat) = 0 ∧
    (@check_fix_bq27427_errata Unit 0x12 255 (fun _ => .ok 0x10)).2 = .ok () ∧
    runWrites ⟨List.replicate 32 0, 255⟩
        (@check_fix_bq27427_errata Unit 0x12 255 (fun _ => .ok 0x10)).1
      = ⟨List.replicate 32 0, 255⟩ := by
  have h := C6_errata_fix_gate_idempotent 0x12 255
    (fun _ => (.ok 0x10 : Except Unit Nat)) (by decide)
  exact ⟨by decide, h.2.1, h.2.2.2.2.2 ⟨List.replicate 32 0, 255⟩⟩

set_option maxRecDepth 4096 in
theorem xor128_bit_set :
    ∀ x, x < 256 → x &&& 0x80 ≠ 0 → 128 ≤ x ∧ x ^^^ 0x80 = x - 128 := by
  decide

set_option maxRecDepth 4096 in
theorem csum_xor128 :
    ∀ s, s < 256 → (255 - s) ^^^ 0x80 = 255 - ((s + 128) % 256) := by
  decide

theorem sum_set_exchange (b : List Nat) (n v : Nat) (hn : n < b.length) :
    (b.set n v).sum + b.getD n 0 = b.sum + v := by
  induction b generalizing n with
  | nil => simp at hn
  | cons x xs ih =>
    cases n with
    | zero => simp [List.getD_cons_zero]; omega
    | succ m =>
      simp only [List.set_cons_succ, List.sum_cons, List.getD_cons_succ]
      have := ih m (by simpa using hn)
      omega

/-- Clearing a set bit 7 of byte 5 turns checksum `c` into `c ^^^ 0x80`:
the direct errata path's checksum update agrees with recomputation. -/
theorem checksum_clear_sign (b : List Nat) (h5 : 5 < b.length)
    (hlt : b.getD 5 0 < 256) (hbit : b.getD 5 0 &&& 0x80 ≠ 0) :
    calculate_block_checksum (b.set 5 (b.getD 5 0 ^^^ 0x80))
      = calculate_block_checksum b ^^^ 0x80 := by
  obtain ⟨h128, hxor⟩ := xor128_bit_set (b.getD 5 0) hlt hbit
  have hsum := sum_set_exchange b 5 (b.getD 5 0 ^^^ 0x80) h5
  rw [hxor] at hsum
  rw [calculate_block_checksum, calculate_block_checksum, wrap_sum_eq, wrap_sum_eq, hxor]
  have hS : (b.set 5 (b.getD 5 0 - 128)).sum = b.sum - 128 := by omega
  have hge : 128 ≤ b.sum := by omega
  rw [hS]
  have h256 : b.sum - 128 + 256 = b.sum + 128 := by omega
  rw [← Nat.add_mod_right (b.sum - 128) 256, h256, Nat.add_mod b.sum 128 256]
  rw [csum_xor128 (b.sum % 256) (Nat.mod_lt _ (by omega))]

theorem take_succ_set (d : List Nat) (n x : Nat) (h : n < d.length) :
    (d.set n x).take (n + 1) = d.take n ++ [x] := by
  induction d generalizing n with
  | nil => simp at h
  | cons y ys ih =>
    cases n with
    | zero => simp
    | succ m =>
      rw [List.set_cons_succ, List.take_succ_cons, List.take_succ_cons,
        ih m (by simpa using h), List.cons_append]

theorem runWrites_enumFrom (xs : List Nat) : ∀ (d : List Nat) (c n : Nat),
    n + xs.length = d.length → d.length ≤ 32 →
    runWrites ⟨d, c⟩ ((xs.enumFrom n).map fun p => BusOp.wr [BLOCK_DATA + p.1, p.2])
      = ⟨d.take n ++ xs, c⟩ := by
  induction xs with
  | nil =>
    intro d c n hlen hle
    have hn : n = d.length := by simpa using hlen
    simp [runWrites, List.enumFrom, hn]
  | cons x rest ih =>
    intro d c n hlen hle
    simp only [List.length_cons] at hlen
    have hn : n < 32 := by omega
    have hnd : n < d.length := by omega
    have happ : applyOp ⟨d, c⟩ (.wr [BLOCK_DATA + n, x]) = ⟨d.set n x, c⟩ := by
      have hc : BLOCK_DATA ≤ BLOCK_DATA + n ∧ BLOCK_DATA + n < BLOCK_DATA_CHECKSUM := by
        refine ⟨Nat.le_add_right _ _, ?_⟩
        simp only [BLOCK_DATA, BLOCK_DATA_CHECKSUM]
        omega
      simp [applyOp, hc, Nat.add_sub_cancel_left]
    show runWrites (applyOp ⟨d, c⟩ (.wr [BLOCK_DATA + n, x]))
      ((rest.enumFrom (n + 1)).map fun p => BusOp.wr [BLOCK_DATA + p.1, p.2])
      = ⟨d.take n ++ x :: rest, c⟩
    rw [happ, ih (d.set n x) c (n + 1) (by simp [List.length_set]; omega)
      (by simp [List.length_set]; omega)]
    rw [take_succ_set d n x hnd]
    simp

theorem runWrites_enum (xs d : List Nat) (c : Nat) (hlen : xs.length = d.length)
    (hle : d.length ≤ 32) :
    runWrites ⟨d, c⟩ (xs.enum.map fun p => BusOp.wr [BLOCK_DATA + p.1, p.2])
      = ⟨xs, c⟩ := by
  have he : xs.enum = xs.enumFrom 0 := rfl
  rw [he, runWrites_enumFrom xs d c 0 (by omega) hle]
  simp

theorem runWrites_prepare (st : BlockState) (cls block : Nat) :
    runWrites st (memblock_prepare_op cls block) = st := rfl

theorem runWrites_blockdata_ptr (st : BlockState) :
    runWrites st [BusOp.wr [BLOCK_DATA]] = st := rfl

theorem runWrites_csum_delay (st : BlockState) (v : Nat) :
    runWrites st [BusOp.wr [BLOCK_DATA_CHECKSUM, v], BusOp.delayMs 5]
      = { st with csum := v } := rfl

theorem runWrites_readback_reset (st : BlockState) (q : Nat) :
    runWrites st [BusOp.rdCsum q, wrControl SOFT_RESET] = st := rfl

/-- End state of the full read-modify-write path: afterwards the window
holds exactly the written block and its freshly computed checksum. -/
theorem memblock_write_end_state {E : Type} (cls block : Nat) (xs d : List Nat)
    (c cs : Nat) (resps : Nat → Except E Nat)
    (hm : (mode_cfgupdate resps).2 = .ok ()) (hlen : xs.length = d.length)
    (hle : d.length ≤ 32) :
    runWrites ⟨d, cs⟩ (memblock_write cls block xs resps (.ok c)).1
      = ⟨xs, calculate_block_checksum xs⟩ := by
  have h1 : (memblock_write cls block xs resps (.ok c)).1
      = (mode_cfgupdate resps).1 ++ memblock_prepare_op cls block
        ++ [.wr [BLOCK_DATA]]
        ++ xs.enum.map (fun p => .wr [BLOCK_DATA + p.1, p.2])
        ++ [.wr [BLOCK_DATA_CHECKSUM, calculate_block_checksum xs], .delayMs 5]
        ++ memblock_prepare_op cls block
        ++ [.rdCsum c, wrControl SOFT_RESET] := by
    simp [memblock_write, hm]
  rw [h1]
  simp only [runWrites_append, runWrites_mode_trace, runWrites_prepare,
    runWrites_blockdata_ptr]
  rw [runWrites_enum xs d cs hlen hle]
  simp only [runWrites_csum_delay, runWrites_prepare, runWrites_readback_reset]

/-- End state of the direct errata path: byte 5 of the window is replaced by
the bit-flipped sign byte and the checksum register by the old checksum XOR
0x80. -/
theorem check_fix_end_state {E : Type} (signByte csumResp : Nat)
    (resps : Nat → Except E Nat) (st : BlockState)
    (hbit : signByte &&& 0x80 ≠ 0) (hm : (mode_cfgupdate resps).2 = .ok ()) :
    runWrites st (@check_fix_bq27427_errata E signByte csumResp resps).1
      = ⟨st.data.set 5 (signByte ^^^ 0x80), csumResp ^^^ 0x80⟩ := by
  have hcond : signByte &&& 0x80 > 0 := Nat.pos_of_ne_zero hbit
  have htr : (@check_fix_bq27427_errata E signByte csumResp resps).1
      = memblock_prepare_op CC_CAL 0
        ++ [.rdByte (BLOCK_DATA + 5) signByte, .rdCsum csumResp]
        ++ (mode_cfgupdate resps).1
        ++ [.wr [BLOCK_DATA + 5, signByte ^^^ 0x80],
            .wr [BLOCK_DATA_CHECKSUM, csumResp ^^^ 0x80],
            wrControl SOFT_RESET] := by
    simp [check_fix_bq27427_errata, hcond, hm]
  rw [htr]
  simp only [runWrites_append, runWrites_mode_trace, runWrites_prepare]
  rw [show runWrites st [BusOp.rdByte (BLOCK_DATA + 5) signByte,
    BusOp.rdCsum csumResp] = st from rfl]
  rfl

/-- C7: the two errata remediation strategies agree.  Starting from any
32-byte block whose sign bit (bit 7 of byte 5) is set, the direct path of
`check_fix_bq27427_errata` (write the bit-flipped byte at its register
offset, write the old checksum XOR 0x80) leaves the block window in exactly
the state that the full read-modify-write path (`memblock_write` of the
block with the bit cleared) produces: the same 32 bytes with bit 7 of byte 5
cleared and the same valid checksum.  In particular the old checksum XOR
0x80 equals the checksum recomputed over the modified block, and both paths
complete with `Ok`. -/
theorem C7_errata_strategies_agree {E : Type} (b : List Nat)
    (resps : Nat → Except E Nat)
    (hlen : b.length = 32) (hbytes : ∀ x ∈ b, x < 256)
    (hbit : b.getD 5 0 &&& 0x80 ≠ 0)
    (hm : (mode_cfgupdate resps).2 = .ok ()) :
    calculate_block_checksum b ^^^ 0x80
      = calculate_block_checksum (b.set 5 (b.getD 5 0 ^^^ 0x80)) ∧
    runWrites ⟨b, calculate_block_checksum b⟩
        (@check_fix_bq27427_errata E (b.getD 5 0) (calculate_block_checksum b)
          resps).1
      = runWrites ⟨b, calculate_block_checksum b⟩
          (memblock_write CC_CAL 0 (b.set 5 (b.getD 5 0 ^^^ 0x80)) resps
            (.ok (calculate_block_checksum (b.set 5 (b.getD 5 0 ^^^ 0x80))))).1 ∧
    runWrites ⟨b, calculate_block_checksum b⟩
        (@check_fix_bq27427_errata E (b.getD 5 0) (calculate_block_checksum b)
          resps).1
      = ⟨b.set 5 (b.getD 5 0 ^^^ 0x80),
         calculate_block_checksum (b.set 5 (b.getD 5 0 ^^^ 0x80))⟩ ∧
    (@check_fix_bq27427_errata E (b.getD 5 0) (calculate_block_checksum b)
        resps).2 = .ok () ∧
    (memblock_write CC_CAL 0 (b.set 5 (b.getD 5 0 ^^^ 0x80)) resps
        (.ok (calculate_block_checksum (b.set 5 (b.getD 5 0 ^^^ 0x80))))).2
      = .ok () := by
  have h5 : 5 < b.length := by omega
  have hlt : b.getD 5 0 < 256 := by
    have hmem : b.getD 5 0 ∈ b := by
      rw [List.getD_eq_getElem b 0 h5]
      exact List.getElem_mem h5
    exact hbytes _ hmem
  have hcs := checksum_clear_sign b h5 hlt hbit
  have hdirect := check_fix_end_state (b.getD 5 0) (calculate_block_checksum b)
    resps ⟨b, calculate_block_checksum b⟩ hbit hm
  have hrmw := memblock_write_end_state CC_CAL 0 (b.set 5 (b.getD 5 0 ^^^ 0x80))
    b (calculate_block_checksum (b.set 5 (b.getD 5 0 ^^^ 0x80)))
    (calculate_block_checksum b) resps hm (by simp) (by omega)
  have hdirect' : runWrites ⟨b, calculate_block_checksum b⟩
      (@check_fix_bq27427_errata E (b.getD 5 0) (calculate_block_checksum b)
        resps).1
      = ⟨b.set 5 (b.getD 5 0 ^^^ 0x80),
         calculate_block_checksum (b.set 5 (b.getD 5 0 ^^^ 0x80))⟩ := by
    rw [hdirect, hcs]
  have hcond : b.getD 5 0 &&& 0x80 > 0 := Nat.pos_of_ne_zero hbit
  refine ⟨hcs.symm, ?_, hdirect', ?_, ?_⟩
  · rw [hdirect', hrmw]
  · simp only [check_fix_bq27427_errata]
    rw [if_pos hcond]
    simp [hm]
  · simp [memblock_write, hm]

theorem C7_errata_strategies_agree_witness :
    ((List.replicate 5 0 ++ 0x80 :: List.replicate 26 0).getD 5 0 &&& 0x80 ≠ 0) ∧
    calculate_block_checksum (List.replicate 5 0 ++ 0x80 :: List.replicate 26 0)
        ^^^ 0x80
      = calculate_block_checksum
          ((List.replicate 5 0 ++ 0x80 :: List.replicate 26 0).set 5
            ((List.replicate 5 0 ++ 0x80 :: List.replicate 26 0).getD 5 0 ^^^ 0x80)) ∧
    runWrites ⟨List.replicate 5 0 ++ 0x80 :: List.replicate 26 0,
        calculate_block_checksum (List.replicate 5 0 ++ 0x80 :: List.replicate 26 0)⟩
        (@check_fix_bq27427_errata Unit
          ((List.replicate 5 0 ++ 0x80 :: List.replicate 26 0).getD 5 0)
          (calculate_block_checksum (List.replicate 5 0 ++ 0x80 :: List.replicate 26 0))
          (fun _ => Except.ok 0x10)).1
      = runWrites ⟨List.replicate 5 0 ++ 0x80 :: List.replicate 26 0,
          calculate_block_checksum (List.replicate 5 0 ++ 0x80 :: List.replicate 26 0)⟩
          (@memblock_write Unit CC_CAL 0
            ((List.replicate 5 0 ++ 0x80 :: List.replicate 26 0).set 5
              ((List.replicate 5 0 ++ 0x80 :: List.replicate 26 0).getD 5 0 ^^^ 0x80))
            (fun _ => Except.ok 0x10)
            (Except.ok (calculate_block_checksum
              ((List.replicate 5 0 ++ 0x80 :: List.replicate 26 0).set 5
                ((List.replicate 5 0 ++ 0x80 :: List.replicate 26 0).getD 5 0
                  ^^^ 0x80))))).1 := by
  have h := C7_errata_strategies_agree (List.replicate 5 0 ++ 0x80 :: List.replicate 26 0)
    (fun _ => (.ok 0x10 : Except Unit Nat)) (by decide)
    (by decide) (by decide) rfl
  exact ⟨by decide, h.1, h.2.1⟩

/-- C8 counterexample: with DEVICE_TYPE response 0x0427 every transport
read succeeds, yet `probe` does not return a `ChipType`: the BQ27427 errata
check runs first, its block read fails checksum verification, and `probe`
surfaces the `Checksum` error. -/
theorem C8_counterexample :
    (@probe Unit 0x0427 0x10 (List.replicate 32 0)
        (fun _ => .ok 0x10) (.ok 255)).2 = .error .Checksum := by
  rfl

/-- C8 (amended): decoding a device-type response is total over u16 and
never fails — 0x0421 decodes to BQ27421, and every code outside the known
set (e.g. 0xFFFF) decodes to `Unknown` — and, once the transport read
succeeds, `probe` returns `Ok` with the decoded `ChipType` for every
response that does not decode to BQ27427; for a BQ27427 response the errata
patch runs first and its failure propagates (see the counterexample). -/
theorem C8_decode_total {E : Type} (code chipCsum : Nat) (chipData : List Nat)
    (resps : Nat → Except E Nat) (rb : Except E Nat)
    (hne : chipTypeFrom code ≠ .BQ27427) :
    chipTypeFrom 0x0421 = .BQ27421 ∧
    chipTypeFrom 0xFFFF = .Unknown ∧
    (code ∉ [0x0421, 0x0426, 0x0427] → chipTypeFrom code = .Unknown) ∧
    (@probe E code chipCsum chipData resps rb).2 = .ok (chipTypeFrom code) := by
  refine ⟨rfl, rfl, ?_, ?_⟩
  · intro hmem
    simp only [List.mem_cons, List.not_mem_nil, or_false, not_or] at hmem
    simp [chipTypeFrom, hmem.1, hmem.2.1, hmem.2.2]
  · cases ht : chipTypeFrom code with
    | BQ27421 => simp [probe, ht]
    | BQ27426 => simp [probe, ht]
    | BQ27427 => exact absurd ht hne
    | Unknown => simp [probe, ht]

theorem C8_decode_total_witness :
    chipTypeFrom 0x0421 = .BQ27421 ∧
    chipTypeFrom 0xFFFF = .Unknown ∧
    (@probe Unit 0xFFFF 255 (List.replicate 32 0)
        (fun _ => .ok 0x10) (.ok 255)).2 = .ok (chipTypeFrom 0xFFFF) := by
  have h := C8_decode_total 0xFFFF 255 (List.replicate 32 0)
    (fun _ => (.ok 0x10 : Except Unit Nat)) (.ok 255) (by decide)
  exact ⟨h.1, h.2.1, h.2.2.2⟩

/-- C9: invoking the write-only `execute` with a `Simple` envelope is
rejected as a typed `UsageError` result — never silently accepted, and a
variant distinct from the transport, timeout and checksum errors — while a
`Control` envelope issues its 3-byte write. -/
theorem C9_execute_usage_error (opcode subcommand : Nat) :
    execute (.Simple opcode) = .error .UsageError ∧
    (∀ bytes, execute (.Simple opcode) ≠ .ok bytes) ∧
    SpecChipError.UsageError ≠ .TransportFailure ∧
    SpecChipError.UsageError ≠ .PollTimeout ∧
    SpecChipError.UsageError ≠ .ChecksumMismatch ∧
    execute (.Control opcode subcommand)
      = .ok [opcode, subcommand % 256, (subcommand >>> 8) % 256] := by
  refine ⟨rfl, ?_, by decide, by decide, by decide, rfl⟩
  intro bytes h
  simp [execute] at h

theorem C9_execute_usage_error_witness :
    execute (.Simple 0x06) = .error .UsageError ∧
    execute (.Control 0x00 0x0013) = .ok [0x00, 0x13, 0x00] := by
  have h := C9_execute_usage_error 0x06 0x0013
  have h2 := C9_execute_usage_error 0x00 0x0013
  exact ⟨h.1, h2.2.2.2.2.2⟩

/-- C10: once mode entry succeeds, calling `write_chem_id` with
`ChemId::Unknown` panics (modelled as `none`) instead of returning a typed
error value, while every other `ChemId` enters config-update mode, issues
its chemistry control subcommand and finishes with a soft reset. -/
theorem C10_write_chem_id_panics {E : Type} (resps : Nat → Except E Nat)
    (hm : (mode_cfgupdate resps).2 = .ok ()) :
    (@write_chem_id E .Unknown resps) = none ∧
    (@write_chem_id E .A4350 resps)
      = some ((mode_cfgupdate resps).1
          ++ [wrControl CHEM_A, wrControl SOFT_RESET], .ok ()) ∧
    (@write_chem_id E .B4200 resps)
      = some ((mode_cfgupdate resps).1
          ++ [wrControl CHEM_B, wrControl SOFT_RESET], .ok ()) ∧
    (@write_chem_id E .C4400 resps)
      = some ((mode_cfgupdate resps).1
          ++ [wrControl CHEM_C, wrControl SOFT_RESET], .ok ()) := by
  refine ⟨?_, ?_, ?_, ?_⟩ <;> simp [write_chem_id, hm]

theorem C10_write_chem_id_panics_witness :
    (mode_cfgupdate (fun _ => (.ok 0x10 : Except Unit Nat))).2 = .ok () ∧
    (@write_chem_id Unit .Unknown (fun _ => .ok 0x10)) = none ∧
    (@write_chem_id Unit .A4350 (fun _ => .ok 0x10))
      = some ((mode_cfgupdate (fun _ => (.ok 0x10 : Except Unit Nat))).1
          ++ [wrControl CHEM_A, wrControl SOFT_RESET], .ok ()) := by
  have hm : (mode_cfgupdate (fun _ => (.ok 0x10 : Except Unit Nat))).2 = .ok () := rfl
  have h := C10_write_chem_id_panics (fun _ => (.ok 0x10 : Except Unit Nat)) hm
  exact ⟨hm, h.1, h.2.1⟩
